import Mathlib

/-!
# surreal-db-client: response normalisation and the cancellable envelope

A shallow embedding of `src/surreal/surreal.go`.

The program leans on three pieces of the Go standard library and on the
`select` statement.  They are modelled here, next to the program's own
functions, from their documented behaviour:

* `fmt.Sprintf("%s", v)`      : `fmt_Sprintf_s`
* `json.Marshal`              : `json_Marshal`
* `json.Unmarshal`            : `json_Unmarshal`
* `select` over two receives  : `select`

The byte string exchanged between `json.Marshal` and `json.Unmarshal` is
represented by the JSON document it spells (`Json`).

Fragment of Go covered: dynamic values are the ones a JSON decoder yields
(`nil`, `bool`, `float64` holding an integer, `string`, `[]interface{}`,
`map[string]interface{}`), a nil `[]interface{}`, and a channel (a value
`json.Marshal` rejects).  Target types are `string`, `int`, `bool`,
`interface{}`, slices and structs with exported, tagged fields.  Arrays, maps
as targets, types with their own `String`, `MarshalJSON` or `UnmarshalJSON`
methods, spare slice capacity and Unicode case folding of field names are
outside the fragment.
-/

namespace surreal

/-! ## Go values -/

/-- Go `error` values that occur in the program. -/
inductive Error where
  /-- Built by `errors.New(msg)` or `fmt.Errorf(msg)`. -/
  | errorString (msg : String)
  /-- The `*json.UnsupportedTypeError` of `json.Marshal`. -/
  | unsupportedType
  /-- The `*json.InvalidUnmarshalError` of `json.Unmarshal` (nil or non-pointer target). -/
  | invalidUnmarshal
  /-- The `*json.UnmarshalTypeError` with its `Value` and `Type` fields. -/
  | unmarshalType (value : String) (goType : String)
  deriving DecidableEq, Repr

/-- The call `errors.New(msg)`. -/
def errors_New (msg : String) : Error := .errorString msg

/-- The call `fmt.Errorf(msg)` with a format string free of verbs. -/
def fmt_Errorf (msg : String) : Error := .errorString msg

/-- Dynamic values of type `interface{}` handed over by the driver.
`num n` is the `float64` equal to the integer `n` (the model is exact for
magnitudes below 2^53).  An `obj` lists the entries of a
`map[string]interface{}` in ascending key order, each key once (the order in
which `json.Marshal` writes them). -/
inductive Raw where
  | null
  | bool (b : Bool)
  | num (n : Int)
  | str (s : String)
  /-- The nil slice `[]interface{}(nil)`. -/
  | nilSlice
  | arr (xs : List Raw)
  | obj (kvs : List (String × Raw))
  /-- A channel value: one of the kinds `json.Marshal` cannot encode. -/
  | chan
  deriving Repr

/-- JSON documents: what the bytes produced by `json.Marshal` spell. -/
inductive Json where
  | null
  | bool (b : Bool)
  | num (n : Int)
  | str (s : String)
  | arr (xs : List Json)
  | obj (kvs : List (String × Json))
  deriving Repr

/-- Typed Go variables a caller can decode into.  A value carries its type:
`slice elem xs` is a `[]T` whose `T` has zero value `elem`; a struct lists its
exported fields under their JSON names. -/
inductive GoVal where
  | str (s : String)
  | int (i : Int)
  | bool (b : Bool)
  /-- An `interface{}` holding the dynamic value `r` (`Raw.null` is the nil interface). -/
  | iface (r : Raw)
  /-- A nil slice of element type `elem`. -/
  | nilSlice (elem : GoVal)
  /-- A non-nil slice of element type `elem`. -/
  | slice (elem : GoVal) (xs : List GoVal)
  | struct (name : String) (fields : List (String × GoVal))
  deriving Repr

/-- The argument `v interface{}` of `Unmarshal`. -/
inductive Target where
  /-- The nil interface. -/
  | nil
  /-- A value passed directly, not through a pointer. -/
  | value (cur : GoVal)
  /-- A pointer to a variable currently holding `cur`. -/
  | ptr (cur : GoVal)
  deriving Repr

/-! ## fmt.Sprintf("%s", v) -/

/-- Joins rendered elements with single spaces, as `fmt` does inside `[...]` and `{...}`. -/
def joinSp : List String → String
  | [] => ""
  | [s] => s
  | s :: rest => s ++ " " ++ joinSp rest

mutual
/-- Rendering under `%s` of a dynamic value met inside a composite.  Numbers
are shown in plain decimal, as Go does below 10^6 (from there on Go uses the
exponent form); channels are shown with an arbitrary address. -/
def fmtRaw : Raw → String
  | .null => "<nil>"
  | .bool b => "%!s(bool=" ++ toString b ++ ")"
  | .num n => "%!s(float64=" ++ toString n ++ ")"
  | .str s => s
  | .nilSlice => "[]"
  | .arr xs => "[" ++ joinSp (fmtRawList xs) ++ "]"
  | .obj kvs => "map[" ++ joinSp (fmtRawFields kvs) ++ "]"
  | .chan => "%!s(chan int=0xc000010000)"
/-- Renders the elements of a `[]interface{}`. -/
def fmtRawList : List Raw → List String
  | [] => []
  | x :: xs => fmtRaw x :: fmtRawList xs
/-- Renders the entries of a map as `key:value`. -/
def fmtRawFields : List (String × Raw) → List String
  | [] => []
  | (k, x) :: kvs => (k ++ ":" ++ fmtRaw x) :: fmtRawFields kvs
end

mutual
/-- Rendering under `%s` of a typed value: strings verbatim, other scalars as
a bad-verb notice, slices as `[a b]`, structs as `{a b}`. -/
def fmtVal : GoVal → String
  | .str s => s
  | .int i => "%!s(int=" ++ toString i ++ ")"
  | .bool b => "%!s(bool=" ++ toString b ++ ")"
  | .iface r => fmtRaw r
  | .nilSlice _ => "[]"
  | .slice _ xs => "[" ++ joinSp (fmtValList xs) ++ "]"
  | .struct _ fields => "\x7b" ++ joinSp (fmtValFields fields) ++ "\x7d"
/-- Renders the elements of a slice. -/
def fmtValList : List GoVal → List String
  | [] => []
  | x :: xs => fmtVal x :: fmtValList xs
/-- Renders the field values of a struct. -/
def fmtValFields : List (String × GoVal) → List String
  | [] => []
  | (_, x) :: fields => fmtVal x :: fmtValFields fields
end

/-- Go type name of a typed value, as printed in error messages. -/
def typeName : GoVal → String
  | .str _ => "string"
  | .int _ => "int"
  | .bool _ => "bool"
  | .iface _ => "interface \x7b\x7d"
  | .nilSlice elem => "[]" ++ typeName elem
  | .slice elem _ => "[]" ++ typeName elem
  | .struct name _ => name

/-- The call `fmt.Sprintf("%s", v)`.  At top level a pointer to a slice or a
struct prints as `&` followed by the pointee; any other pointer prints as a
bad-verb notice with its address (the address shown is an arbitrary one). -/
def fmt_Sprintf_s : Target → String
  | .nil => "%!s(<nil>)"
  | .value cur => fmtVal cur
  | .ptr (.nilSlice elem) => "&" ++ fmtVal (.nilSlice elem)
  | .ptr (.slice elem xs) => "&" ++ fmtVal (.slice elem xs)
  | .ptr (.struct name fields) => "&" ++ fmtVal (.struct name fields)
  | .ptr cur => "%!s(*" ++ typeName cur ++ "=0xc000010000)"

/-! ## encoding/json -/

mutual
/-- The call `json.Marshal(x)` on a dynamic value: a nil slice encodes as
`null`, a channel is rejected, map entries are written in key order (the
order `Raw.obj` lists them in). -/
def json_Marshal : Raw → Except Error Json
  | .null => .ok .null
  | .bool b => .ok (.bool b)
  | .num n => .ok (.num n)
  | .str s => .ok (.str s)
  | .nilSlice => .ok .null
  | .arr xs =>
    match marshalList xs with
    | .error e => .error e
    | .ok js => .ok (.arr js)
  | .obj kvs =>
    match marshalFields kvs with
    | .error e => .error e
    | .ok js => .ok (.obj js)
  | .chan => .error .unsupportedType
/-- Encodes the elements of a slice, stopping at the first failure. -/
def marshalList : List Raw → Except Error (List Json)
  | [] => .ok []
  | x :: xs =>
    match json_Marshal x with
    | .error e => .error e
    | .ok j =>
      match marshalList xs with
      | .error e => .error e
      | .ok js => .ok (j :: js)
/-- Encodes the entries of a map, stopping at the first failure. -/
def marshalFields : List (String × Raw) → Except Error (List (String × Json))
  | [] => .ok []
  | (k, x) :: kvs =>
    match json_Marshal x with
    | .error e => .error e
    | .ok j =>
      match marshalFields kvs with
      | .error e => .error e
      | .ok js => .ok ((k, j) :: js)
end

mutual
/-- Generic decoding of a document into an `interface{}`. -/
def toIface : Json → Raw
  | .null => .null
  | .bool b => .bool b
  | .num n => .num n
  | .str s => .str s
  | .arr js => .arr (toIfaceList js)
  | .obj kvs => .obj (toIfaceFields kvs)
/-- Generic decoding of array elements. -/
def toIfaceList : List Json → List Raw
  | [] => []
  | j :: js => toIface j :: toIfaceList js
/-- Generic decoding of object members. -/
def toIfaceFields : List (String × Json) → List (String × Raw)
  | [] => []
  | (k, j) :: kvs => (k, toIface j) :: toIfaceFields kvs
end

/-- The decoder keeps the earliest error it met (`saveError`). -/
def firstError : Option Error → Option Error → Option Error
  | some e, _ => some e
  | none, e => e

/-- ASCII case folding of a member name. -/
def foldName (s : String) : String := ⟨s.data.map Char.toUpper⟩

/-- Index of the struct field a JSON member name selects: an exact match of
the field's JSON name, otherwise a case-insensitive one. -/
def fieldIndex (key : String) (fields : List (String × GoVal)) : Option Nat :=
  match fields.findIdx? (fun f => f.1 == key) with
  | some i => some i
  | none => fields.findIdx? (fun f => foldName f.1 == foldName key)

/-- Whether an integer fits Go's 64-bit `int`. -/
def fitsInt (n : Int) : Bool := decide (-(2 : Int) ^ 63 ≤ n) && decide (n < (2 : Int) ^ 63)

mutual
/-- Decoding of one JSON value into a typed variable holding `cur`.  Returns
the variable's new content and the earliest type error.  A value of the wrong
kind is skipped, leaving the variable as it was. -/
def decode : Json → GoVal → GoVal × Option Error
  | .null, .iface _ => (.iface .null, none)
  | .null, .nilSlice elem => (.nilSlice elem, none)
  | .null, .slice elem _ => (.nilSlice elem, none)
  | .null, cur => (cur, none)
  | .bool b, .bool _ => (.bool b, none)
  | .bool b, .iface _ => (.iface (.bool b), none)
  | .bool _, cur => (cur, some (.unmarshalType "bool" (typeName cur)))
  | .str s, .str _ => (.str s, none)
  | .str s, .iface _ => (.iface (.str s), none)
  | .str _, cur => (cur, some (.unmarshalType "string" (typeName cur)))
  | .num n, .int i =>
    if fitsInt n then (.int n, none)
    else (.int i, some (.unmarshalType ("number " ++ toString n) "int"))
  | .num n, .iface _ => (.iface (.num n), none)
  | .num _, cur => (cur, some (.unmarshalType "number" (typeName cur)))
  | .arr js, .iface _ => (.iface (.arr (toIfaceList js)), none)
  | .arr js, .nilSlice elem =>
    let r := decodeList js [] elem
    (.slice elem r.1, r.2)
  | .arr js, .slice elem olds =>
    let r := decodeList js olds elem
    (.slice elem r.1, r.2)
  | .arr _, cur => (cur, some (.unmarshalType "array" (typeName cur)))
  | .obj kvs, .iface _ => (.iface (.obj (toIfaceFields kvs)), none)
  | .obj kvs, .struct name fields =>
    let r := decodeFields kvs fields
    (.struct name r.1, r.2)
  | .obj _, cur => (cur, some (.unmarshalType "object" (typeName cur)))
/-- Decoding of array elements into a slice: element `i` is decoded into the
existing element `i` when there is one, into a zero element otherwise; the
slice ends up as long as the array. -/
def decodeList : List Json → List GoVal → GoVal → List GoVal × Option Error
  | [], _, _ => ([], none)
  | j :: js, [], elem =>
    let r := decode j elem
    let rs := decodeList js [] elem
    (r.1 :: rs.1, firstError r.2 rs.2)
  | j :: js, old :: olds, elem =>
    let r := decode j old
    let rs := decodeList js olds elem
    (r.1 :: rs.1, firstError r.2 rs.2)
/-- Decoding of object members into struct fields, in document order; a
member that selects no field is ignored. -/
def decodeFields : List (String × Json) → List (String × GoVal) → List (String × GoVal) × Option Error
  | [], fields => (fields, none)
  | (k, j) :: kvs, fields =>
    match fieldIndex k fields with
    | none => decodeFields kvs fields
    | some i =>
      match fields.get? i with
      | none => decodeFields kvs fields
      | some (name, cur) =>
        let r := decode j cur
        let rs := decodeFields kvs (fields.set i (name, r.1))
        (rs.1, firstError r.2 rs.2)
end

/-- The call `json.Unmarshal(b, v)`: the target must be a non-nil pointer;
the returned pair is the target after the call and the error. -/
def json_Unmarshal (b : Json) : Target → Target × Option Error
  | .nil => (.nil, some .invalidUnmarshal)
  | .value cur => (.value cur, some .invalidUnmarshal)
  | .ptr cur => ((Target.ptr (decode b cur).1), (decode b cur).2)

/-- The standard-library functions `Unmarshal` calls. -/
structure StdLib where
  sprintf : Target → String
  marshal : Raw → Except Error Json
  unmarshal : Json → Target → Target × Option Error

/-- The Go standard library as modelled above. -/
def goStd : StdLib := ⟨fmt_Sprintf_s, json_Marshal, json_Unmarshal⟩

/-! ## The response normaliser (surreal.go, lines 28-68) -/

/-- The type assertion `data.([]interface{})`: the elements when `data` is a
`[]interface{}` (nil or not), nothing otherwise. -/
def assertSlice : Raw → Option (List Raw)
  | .arr xs => some xs
  | .nilSlice => some []
  | _ => none

/-- Source `isSlice`, over an arbitrary standard library: the target counts as
a slice when its `%s` rendering is `[]`, `&[]` or `*[]`. -/
def isSliceWith (L : StdLib) (possibleSlice : Target) : Bool :=
  let res := L.sprintf possibleSlice
  res == "[]" || res == "&[]" || res == "*[]"

/-- Source `Unmarshal`, over an arbitrary standard library.  Returns the
target after the call together with the returned error (`none` is `nil`).
`assertedData` and `data` are the same slice, so the whole sequence is encoded
from `data`. -/
def UnmarshalWith (L : StdLib) (data : Raw) (v : Target) : Target × Option Error :=
  match assertSlice data with
  | none => (v, some (errors_New "invalid SurrealDB response"))
  | some assertedData =>
    let sliceFlag := isSliceWith L v
    let encoded :=
      match sliceFlag, assertedData with
      | false, first :: _ => L.marshal first
      | _, _ => L.marshal data
    match encoded with
    | .error err => (v, some err)
    | .ok jsonBytes => L.unmarshal jsonBytes v

/-- Source `isSlice`. -/
def isSlice (possibleSlice : Target) : Bool := isSliceWith goStd possibleSlice

/-- Source `Unmarshal`. -/
def Unmarshal (data : Raw) (v : Target) : Target × Option Error := UnmarshalWith goStd data v

/-- Whether a variable is declared with a slice type. -/
def GoVal.isSliceTyped : GoVal → Bool
  | .nilSlice _ => true
  | .slice _ _ => true
  | _ => false

/-- Length of a slice variable (0 for anything else). -/
def GoVal.len : GoVal → Nat
  | .slice _ xs => xs.length
  | _ => 0

mutual
/-- Whether a dynamic value is what decoding JSON text into an `interface{}`
yields: no channel and no nil slice anywhere inside. -/
def Raw.isJSON : Raw → Bool
  | .null => true
  | .bool _ => true
  | .num _ => true
  | .str _ => true
  | .nilSlice => false
  | .arr xs => allJSON xs
  | .obj kvs => allFieldsJSON kvs
  | .chan => false
/-- Every element is JSON-shaped. -/
def allJSON : List Raw → Bool
  | [] => true
  | x :: xs => Raw.isJSON x && allJSON xs
/-- Every entry holds a JSON-shaped value. -/
def allFieldsJSON : List (String × Raw) → Bool
  | [] => true
  | (_, x) :: kvs => Raw.isJSON x && allFieldsJSON kvs
end

/-! ## The cancellable envelope (surreal.go, lines 143-312) -/

/-- What a driver call returns: `(interface{}, error)`. -/
abbrev DriverResult := Except Error Raw

/-- The case a `select` statement runs. -/
inductive Selected (α : Type) where
  /-- The case `<-ctx.Done()`. -/
  | done
  /-- The case `<-c`, with the value received. -/
  | recv (x : α)
  deriving DecidableEq, Repr

/-- The statement `select { case <-ctx.Done(): ... case x := <-c: ... }` on an
unbuffered channel `c`: the list of cases that can proceed, given whether
`ctx.Done()` is closed and which value, if any, a sender is blocked on `c`
with.  The Go specification lets any case of that list be the one chosen; an
empty list means the statement blocks. -/
def select {α : Type} (ctxDone : Bool) (sender : Option α) : List (Selected α) :=
  (if ctxDone then [Selected.done] else []) ++
    (match sender with
     | some x => [Selected.recv x]
     | none => [])

/-- The moment at which the invoking goroutine's `select` is resolved. -/
structure Race where
  /-- The context is cancelled or past its deadline. -/
  ctxDone : Bool
  /-- The background goroutine has finished its driver call. -/
  workerArrived : Bool
  deriving DecidableEq, Repr

/-- The sender blocked on the handoff channel: the worker's value once the
worker has got that far. -/
def Race.sender {α : Type} (k : Race) (worker : Option α) : Option α :=
  if k.workerArrived then worker else none

/-- Source `Surreal.delete`: the value sent on `c`, if any. -/
def delete (driver : DriverResult) : Option Bool :=
  match driver with
  | .ok _ => some true
  | .error _ => none

/-- Source `Surreal.create`: the value sent on `c`, if any. -/
def create (driver : DriverResult) : Option Bool :=
  match driver with
  | .ok _ => some true
  | .error _ => none

/-- Source `Surreal.update`: the value sent on `c`, if any. -/
def update (driver : DriverResult) : Option Bool :=
  match driver with
  | .ok _ => some true
  | .error _ => none

/-- Source `Surreal.relate`: the value sent on `c`, if any. -/
def relate (driver : DriverResult) : Option Raw :=
  match driver with
  | .ok resp => some resp
  | .error _ => none

/-- Source `Surreal.get`: the value sent on `c`, if any.  The error of
`json.Marshal` is dropped by the source; the bytes are then empty and
`json.Unmarshal` fails on them. -/
def get (driver : DriverResult) : Option Raw :=
  match driver with
  | .error _ => none
  | .ok item =>
    match json_Marshal item with
    | .error _ => none
    | .ok b =>
      match json_Unmarshal b (.ptr (.iface .null)) with
      | (.ptr (.iface response), none) => some response
      | _ => none

/-- Source `Surreal.query`: the value sent on `c`, if any. -/
def query (driver : DriverResult) : Option Raw :=
  match driver with
  | .ok resp => some resp
  | .error _ => none

/-- Source `Surreal.DeleteItem`: the returns the call can make at `k`. -/
def DeleteItem (k : Race) (driver : DriverResult) : List (Option Error) :=
  (select k.ctxDone (k.sender (delete driver))).map fun
    | .done => some (fmt_Errorf "context cancelled")
    | .recv _ => none

/-- Source `Surreal.CreateItem`: the returns the call can make at `k`. -/
def CreateItem (k : Race) (driver : DriverResult) : List (Option Error) :=
  (select k.ctxDone (k.sender (create driver))).map fun
    | .done => some (fmt_Errorf "context cancelled")
    | .recv _ => none

/-- Source `Surreal.UpdateItem`: the returns the call can make at `k`. -/
def UpdateItem (k : Race) (driver : DriverResult) : List (Option Error) :=
  (select k.ctxDone (k.sender (update driver))).map fun
    | .done => some (fmt_Errorf "context cancelled")
    | .recv _ => none

/-- Source `Surreal.RelateRecords`: the returns the call can make at `k`. -/
def RelateRecords (k : Race) (driver : DriverResult) : List (Raw × Option Error) :=
  (select k.ctxDone (k.sender (relate driver))).map fun
    | .done => (.null, some (fmt_Errorf "context cancelled"))
    | .recv result => (result, none)

/-- Source `Surreal.GetItem`: the returns the call can make at `k`. -/
def GetItem (k : Race) (driver : DriverResult) : List (Raw × Option Error) :=
  (select k.ctxDone (k.sender (get driver))).map fun
    | .done => (.null, some (fmt_Errorf "timeout hit"))
    | .recv result => (result, none)

/-- Source `Surreal.GetItems`: the returns the call can make at `k`. -/
def GetItems (k : Race) (driver : DriverResult) : List (Raw × Option Error) :=
  (select k.ctxDone (k.sender (get driver))).map fun
    | .done => (.null, some (fmt_Errorf "timeout hit"))
    | .recv result => (result, none)

/-- Source type `QueryResult`, as its zero value. -/
def QueryResult : GoVal :=
  .struct "surreal.QueryResult"
    [("time", .str ""), ("status", .str ""), ("result", .nilSlice (.iface .null))]

/-- A `QueryResult` with the given `Time`, `Status` and `Results`. -/
def QueryResult.mk (time status : String) (results : List Raw) : GoVal :=
  .struct "surreal.QueryResult"
    [("time", .str time), ("status", .str status), ("result", .slice (.iface .null) (results.map GoVal.iface))]

/-- What the pointer `&qr` points to after a call. -/
def Target.deref : Target → GoVal
  | .ptr cur => cur
  | .value cur => cur
  | .nil => QueryResult

/-- The second half of source `Surreal.Query`: normalising the received blob. -/
def Query.normalise (blob : Raw) : GoVal × Option Error :=
  let r := Unmarshal blob (.ptr QueryResult)
  match r.2 with
  | some err => (QueryResult, some err)
  | none => (r.1.deref, none)

/-- Source `Surreal.Query`: the returns the call can make at `k`. -/
def Query (k : Race) (driver : DriverResult) : List (GoVal × Option Error) :=
  (select k.ctxDone (k.sender (query driver))).map fun
    | .done => (QueryResult, some (fmt_Errorf "timeout hit"))
    | .recv blob => Query.normalise blob

/-! ## The connection context (surreal.go, lines 13-26, 89-141) -/

/-- Source type `SurrealConfig`. -/
structure SurrealConfig where
  Address : String
  User : String
  Password : String
  Namespace : String
  Database : String
  deriving DecidableEq, Repr

/-- Source type `Surreal`; the driver handle `Client` is represented by the
answers the driver gives. -/
structure Surreal where
  CurrentDatabase : String
  CurrentNamespace : String
  Config : SurrealConfig
  deriving DecidableEq, Repr

/-- Source `New`.  `connect`, `signin` and `use` are the errors the driver
returns from `surrealdb.New`, `db.Signin` and `db.Use` (`none` is `nil`). -/
def New (connect signin use : Option Error) (config : SurrealConfig) : Except Error Surreal :=
  match connect with
  | some err => .error err
  | none =>
    match signin with
    | some err => .error err
    | none =>
      let s : Surreal := ⟨"", "", config⟩
      if config.Namespace != "" || config.Database != "" then
        match use with
        | some err => .error err
        | none => .ok { s with CurrentNamespace := config.Namespace, CurrentDatabase := config.Database }
      else .ok s

/-- Source `Surreal.UseNamespaceAndDatabase`.  `use` is the error `s.Client.Use`
returns.  The result is the client after the call and the returned error. -/
def UseNamespaceAndDatabase (s : Surreal) (use : Option Error) (ns database : String) :
    Surreal × Option Error :=
  match use with
  | some err => (s, some err)
  | none => ({ s with CurrentNamespace := ns, CurrentDatabase := database }, none)

/-- One call of `UseNamespaceAndDatabase` with the driver's answer to it. -/
structure UseCall where
  ns : String
  database : String
  use : Option Error
  deriving DecidableEq, Repr

/-- The client after a sequence of `UseNamespaceAndDatabase` calls. -/
def useAll (s : Surreal) : List UseCall → Surreal
  | [] => s
  | c :: cs => useAll (UseNamespaceAndDatabase s c.use c.ns c.database).1 cs

/-- Both strings unset, or both set. -/
def Paired (ns database : String) : Prop :=
  (ns = "" ∧ database = "") ∨ (ns ≠ "" ∧ database ≠ "")

instance (ns database : String) : Decidable (Paired ns database) := by
  unfold Paired; infer_instance

/-- Whether an error is a `*json.UnmarshalTypeError`. -/
def Error.isTypeError : Error → Bool
  | .unmarshalType _ _ => true
  | _ => false

/-! ## Lemmas on the library model -/

mutual
/-- Encoding fails only with an unsupported-type error. -/
theorem json_Marshal_error :
    ∀ (x : Raw) (e : Error), json_Marshal x = .error e → e = .unsupportedType
  | .null, e, h => by simp [json_Marshal] at h
  | .bool _, e, h => by simp [json_Marshal] at h
  | .num _, e, h => by simp [json_Marshal] at h
  | .str _, e, h => by simp [json_Marshal] at h
  | .nilSlice, e, h => by simp [json_Marshal] at h
  | .chan, e, h => by simp [json_Marshal] at h; exact h.symm
  | .arr xs, e, h => by
    simp only [json_Marshal] at h
    split at h
    · rename_i e1 h1
      cases h
      exact marshalList_error xs _ h1
    · cases h
  | .obj kvs, e, h => by
    simp only [json_Marshal] at h
    split at h
    · rename_i e1 h1
      cases h
      exact marshalFields_error kvs _ h1
    · cases h
/-- Encoding the elements of a slice fails only with an unsupported-type error. -/
theorem marshalList_error :
    ∀ (xs : List Raw) (e : Error), marshalList xs = .error e → e = .unsupportedType
  | [], e, h => by simp [marshalList] at h
  | x :: xs, e, h => by
    simp only [marshalList] at h
    split at h
    · rename_i e1 h1
      cases h
      exact json_Marshal_error x _ h1
    · split at h
      · rename_i e1 h1
        cases h
        exact marshalList_error xs _ h1
      · cases h
/-- Encoding the entries of a map fails only with an unsupported-type error. -/
theorem marshalFields_error :
    ∀ (kvs : List (String × Raw)) (e : Error), marshalFields kvs = .error e → e = .unsupportedType
  | [], e, h => by simp [marshalFields] at h
  | (k, x) :: kvs, e, h => by
    simp only [marshalFields] at h
    split at h
    · rename_i e1 h1
      cases h
      exact json_Marshal_error x _ h1
    · split at h
      · rename_i e1 h1
        cases h
        exact marshalFields_error kvs _ h1
      · cases h
end

/-- The earliest of two errors is a type error when both are. -/
theorem firstError_typeError {a b : Option Error}
    (ha : ∀ e, a = some e → e.isTypeError = true)
    (hb : ∀ e, b = some e → e.isTypeError = true) :
    ∀ e, firstError a b = some e → e.isTypeError = true := by
  intro e h
  cases a with
  | some x => simp [firstError] at h; exact ha _ (by rw [h])
  | none => simp [firstError] at h; exact hb _ h

mutual
/-- Every error the decoder keeps is a type error. -/
theorem decode_error :
    ∀ (j : Json) (cur : GoVal) (e : Error), (decode j cur).2 = some e → e.isTypeError = true
  | .null, cur, e, h => by cases cur <;> simp [decode] at h
  | .bool _, cur, e, h => by cases cur <;> simp [decode] at h <;> (subst h; rfl)
  | .str _, cur, e, h => by cases cur <;> simp [decode] at h <;> (subst h; rfl)
  | .num n, cur, e, h => by
    cases cur <;> simp [decode] at h <;> try (subst h; rfl)
    split at h <;> simp at h
    subst h; rfl
  | .arr js, cur, e, h => by
    cases cur <;> simp [decode] at h <;> try (subst h; rfl)
    · exact decodeList_error js _ _ e h
    · exact decodeList_error js _ _ e h
  | .obj kvs, cur, e, h => by
    cases cur <;> simp [decode] at h <;> try (subst h; rfl)
    exact decodeFields_error kvs _ e h
/-- Every error kept while decoding array elements is a type error. -/
theorem decodeList_error :
    ∀ (js : List Json) (olds : List GoVal) (elem : GoVal) (e : Error),
      (decodeList js olds elem).2 = some e → e.isTypeError = true
  | [], olds, elem, e, h => by simp [decodeList] at h
  | j :: js, [], elem, e, h => by
    simp only [decodeList] at h
    exact firstError_typeError (decode_error j elem) (decodeList_error js [] elem) e h
  | j :: js, old :: olds, elem, e, h => by
    simp only [decodeList] at h
    exact firstError_typeError (decode_error j old) (decodeList_error js olds elem) e h
/-- Every error kept while decoding object members is a type error. -/
theorem decodeFields_error :
    ∀ (kvs : List (String × Json)) (fields : List (String × GoVal)) (e : Error),
      (decodeFields kvs fields).2 = some e → e.isTypeError = true
  | [], fields, e, h => by simp [decodeFields] at h
  | (k, j) :: kvs, fields, e, h => by
    simp only [decodeFields] at h
    split at h
    · exact decodeFields_error kvs fields e h
    · split at h
      · exact decodeFields_error kvs fields e h
      · rename_i name cur _
        exact firstError_typeError (decode_error j cur) (decodeFields_error kvs _) e h
end

/-- The decoding step leaves the target alone unless it returns nil or a type error. -/
theorem json_Unmarshal_unchanged (b : Json) (v : Target) (e : Error)
    (h : (json_Unmarshal b v).2 = some e) (hne : e.isTypeError = false) :
    (json_Unmarshal b v).1 = v := by
  cases v with
  | nil => rfl
  | value cur => rfl
  | ptr cur =>
    simp only [json_Unmarshal] at h
    have := decode_error b cur e h
    rw [hne] at this
    cases this

/-- The decoding step never returns an `errors.New` error. -/
theorem json_Unmarshal_not_errorString (b : Json) (v : Target) (msg : String) :
    (json_Unmarshal b v).2 ≠ some (.errorString msg) := by
  intro h
  cases v with
  | nil => simp [json_Unmarshal] at h
  | value cur => simp [json_Unmarshal] at h
  | ptr cur =>
    have := decode_error b cur _ h
    cases this

/-- A pointer to a variable that is not a slice never renders as a slice marker. -/
theorem isSlice_ptr_of_not_sliceTyped (cur : GoVal) (h : cur.isSliceTyped = false) :
    isSlice (.ptr cur) = false := by
  cases cur <;> simp [GoVal.isSliceTyped] at h <;>
    simp [isSlice, isSliceWith, goStd, fmt_Sprintf_s, fmtVal, typeName, String.ext_iff]

/-- A pointer to a nil slice renders as `&[]`. -/
theorem isSlice_ptr_nilSlice (elem : GoVal) : isSlice (.ptr (.nilSlice elem)) = true := rfl

/-- A pointer to an empty slice renders as `&[]`. -/
theorem isSlice_ptr_emptySlice (elem : GoVal) : isSlice (.ptr (.slice elem [])) = true := rfl

/-- On a non-empty sequence and a target not taken for a slice, `Unmarshal`
encodes element 0 and decodes it. -/
theorem Unmarshal_cons_of_not_isSlice (first : Raw) (rest : List Raw) (v : Target)
    (h : isSlice v = false) :
    Unmarshal (.arr (first :: rest)) v =
      (match json_Marshal first with
       | .error err => (v, some err)
       | .ok b => json_Unmarshal b v) := by
  have h2 : isSliceWith goStd v = false := h
  simp only [Unmarshal, UnmarshalWith, assertSlice, h2]
  rfl

/-- On a target taken for a slice, or on an empty sequence, `Unmarshal`
encodes the whole sequence and decodes it. -/
theorem Unmarshal_whole (data : Raw) (xs : List Raw) (v : Target)
    (hd : assertSlice data = some xs) (h : isSlice v = true ∨ xs = []) :
    Unmarshal data v =
      (match json_Marshal data with
       | .error err => (v, some err)
       | .ok b => json_Unmarshal b v) := by
  simp only [Unmarshal, UnmarshalWith, hd]
  rcases h with h | h
  · have h2 : isSliceWith goStd v = true := h
    simp only [h2]
    rfl
  · subst h
    cases hs : isSliceWith goStd v <;> rfl

/-! ## The response normaliser -/

/-- C1: for a non-empty sequence and a pointer to a variable that is not a
slice (a single-item target), `Unmarshal` encodes element 0 alone and decodes
it into the target; the outcome, target and error, is the same whatever
elements follow. -/
theorem Unmarshal_single_item_first_only (first : Raw) (rest : List Raw) (cur : GoVal)
    (hsingle : cur.isSliceTyped = false) :
    Unmarshal (.arr (first :: rest)) (.ptr cur) =
        (match json_Marshal first with
         | .error err => (.ptr cur, some err)
         | .ok b => json_Unmarshal b (.ptr cur)) ∧
      ∀ rest2 : List Raw,
        Unmarshal (.arr (first :: rest)) (.ptr cur) = Unmarshal (.arr (first :: rest2)) (.ptr cur) := by
  have h := isSlice_ptr_of_not_sliceTyped cur hsingle
  refine ⟨Unmarshal_cons_of_not_isSlice first rest _ h, fun rest2 => ?_⟩
  rw [Unmarshal_cons_of_not_isSlice first rest _ h, Unmarshal_cons_of_not_isSlice first rest2 _ h]

/-- C1, at a two-element response decoded into a struct with fields `name` and `count`. -/
theorem Unmarshal_single_item_first_only_witness :
    GoVal.isSliceTyped (.struct "Item" [("name", .str ""), ("count", .int 0)]) = false ∧
      Unmarshal
          (.arr [.obj [("count", .num 1), ("name", .str "a")], .obj [("count", .num 2), ("name", .str "b")]])
          (.ptr (.struct "Item" [("name", .str ""), ("count", .int 0)])) =
        (.ptr (.struct "Item" [("name", .str "a"), ("count", .int 1)]), none) :=
  ⟨rfl, (Unmarshal_single_item_first_only (.obj [("count", .num 1), ("name", .str "a")])
    [.obj [("count", .num 2), ("name", .str "b")]]
    (.struct "Item" [("name", .str ""), ("count", .int 0)]) rfl).1.trans rfl⟩

/-- C3, refuted as stated: an empty sequence decoded into a pointer to a zero
`QueryResult` makes `Unmarshal` return a type error, not nil. -/
theorem Unmarshal_empty_into_struct_fails :
    (Unmarshal (.arr []) (.ptr QueryResult)).2 =
        some (.unmarshalType "array" "surreal.QueryResult") ∧
      (Unmarshal (.arr []) (.ptr QueryResult)).2 ≠ none :=
  ⟨rfl, by decide⟩

/-- C3, amended: for an empty, non-nil sequence and a pointer to a struct,
`Unmarshal` returns the type error of decoding an array into that struct and
leaves the target exactly as it was; for a nil sequence it returns nil and
leaves the target exactly as it was. -/
theorem Unmarshal_empty_into_struct (name : String) (fields : List (String × GoVal)) :
    Unmarshal (.arr []) (.ptr (.struct name fields)) =
        (.ptr (.struct name fields), some (.unmarshalType "array" name)) ∧
      Unmarshal .nilSlice (.ptr (.struct name fields)) = (.ptr (.struct name fields), none) := by
  constructor
  · rw [Unmarshal_whole (.arr []) [] _ rfl (Or.inr rfl)]
    rfl
  · rw [Unmarshal_whole .nilSlice [] _ rfl (Or.inr rfl)]
    rfl

/-- C4, at the failing input: a pointer to the populated slice `[]string{"x"}`
is slice-typed, yet `isSlice` answers false, so `Unmarshal` decodes only the
first element of the response into it, which fails and leaves the slice as it was. -/
theorem isSlice_misses_populated_slice :
    GoVal.isSliceTyped (.slice (.str "") [.str "x"]) = true ∧
      isSlice (.ptr (.slice (.str "") [.str "x"])) = false ∧
      Unmarshal (.arr [.str "a", .str "b"]) (.ptr (.slice (.str "") [.str "x"])) =
        (.ptr (.slice (.str "") [.str "x"]), some (.unmarshalType "string" "[]string")) :=
  ⟨rfl, rfl, rfl⟩

/-- C5: `Unmarshal` returns the error "invalid SurrealDB response" exactly when
the raw response is not a `[]interface{}`, for every target; in that case the
outcome is that error with the target as it was, whatever the formatting,
encoding and decoding functions would do. -/
theorem Unmarshal_invalid_response_iff (data : Raw) (v : Target) :
    ((Unmarshal data v).2 = some (errors_New "invalid SurrealDB response") ↔
        assertSlice data = none) ∧
      (assertSlice data = none →
        ∀ L : StdLib, UnmarshalWith L data v = (v, some (errors_New "invalid SurrealDB response"))) := by
  refine ⟨⟨fun h => ?_, fun h => ?_⟩, fun h L => ?_⟩
  · cases hd : assertSlice data with
    | none => rfl
    | some xs =>
      exfalso
      simp only [Unmarshal, UnmarshalWith, hd] at h
      split at h
      · rename_i err hm
        simp only [errors_New, Option.some.injEq] at h
        subst h
        split at hm
        · exact absurd (json_Marshal_error _ _ hm) (by simp)
        · exact absurd (json_Marshal_error _ _ hm) (by simp)
      · exact json_Unmarshal_not_errorString _ _ _ h
  · simp only [Unmarshal, UnmarshalWith, h]
  · simp only [UnmarshalWith, h]

/-- C5, at the response `"oops"` (a string, not a sequence) and a pointer to a zero `QueryResult`. -/
theorem Unmarshal_invalid_response_iff_witness :
    assertSlice (.str "oops") = none ∧
      ∀ L : StdLib, UnmarshalWith L (.str "oops") (.ptr QueryResult) =
        (.ptr QueryResult, some (errors_New "invalid SurrealDB response")) :=
  ⟨rfl, (Unmarshal_invalid_response_iff (.str "oops") (.ptr QueryResult)).2 rfl⟩

/-- C6, refuted as stated: a response whose `status` is a number makes
`Unmarshal` return a type error while `Results` and `Time` of the target have
been written. -/
theorem Unmarshal_error_with_written_target :
    Unmarshal
        (.arr [.obj [("result", .arr []), ("status", .num 5), ("time", .str "1ms")]])
        (.ptr QueryResult) =
      (.ptr (.struct "surreal.QueryResult"
          [("time", .str "1ms"), ("status", .str ""), ("result", .slice (.iface .null) [])]),
        some (.unmarshalType "number" "string")) ∧
      Target.ptr (.struct "surreal.QueryResult"
          [("time", .str "1ms"), ("status", .str ""), ("result", .slice (.iface .null) [])]) ≠
        .ptr QueryResult :=
  ⟨rfl, by simp [QueryResult]⟩

/-- C6, amended: when `Unmarshal` returns an error that is not a decoding type
error (the invalid-response error, an encoding error, or the rejection of a
target that is not a non-nil pointer), the target is exactly what it was
before the call. -/
theorem Unmarshal_unchanged_unless_type_error (data : Raw) (v : Target) (e : Error)
    (herr : (Unmarshal data v).2 = some e) (hne : e.isTypeError = false) :
    (Unmarshal data v).1 = v := by
  cases hd : assertSlice data with
  | none => simp only [Unmarshal, UnmarshalWith, hd]
  | some xs =>
    simp only [Unmarshal, UnmarshalWith, hd] at herr ⊢
    split
    · rfl
    · rename_i b hm
      rw [hm] at herr
      exact json_Unmarshal_unchanged b v e herr hne

/-- C6 amended, at a response holding a channel and a pointer to a zero `QueryResult`. -/
theorem Unmarshal_unchanged_unless_type_error_witness :
    (Unmarshal (.arr [.chan]) (.ptr QueryResult)).2 = some .unsupportedType ∧
      Error.isTypeError .unsupportedType = false ∧
      (Unmarshal (.arr [.chan]) (.ptr QueryResult)).1 = .ptr QueryResult :=
  ⟨rfl, rfl, Unmarshal_unchanged_unless_type_error _ _ _ rfl rfl⟩

/-- Encoding keeps the number of elements. -/
theorem marshalList_length :
    ∀ (xs : List Raw) (js : List Json), marshalList xs = .ok js → js.length = xs.length
  | [], js, h => by
    simp only [marshalList, Except.ok.injEq] at h
    subst h; rfl
  | x :: xs, js, h => by
    simp only [marshalList] at h
    split at h
    · cases h
    · split at h
      · cases h
      · rename_i j _ js2 h2
        simp only [Except.ok.injEq] at h
        subst h
        simp [marshalList_length xs js2 h2]

/-- Decoding an array into a slice without elements decodes every element into a zero element. -/
theorem decodeList_nil (elem : GoVal) :
    ∀ js : List Json, (decodeList js [] elem).1 = js.map fun j => (decode j elem).1
  | [] => by simp [decodeList]
  | j :: js => by simp [decodeList, decodeList_nil elem js]

/-- C2, refuted as stated: a response holding a value `json.Marshal` rejects
leaves an empty slice target empty, and a populated slice target is not given
the sequence (the latter is the defect of `isSlice` recorded under C4). -/
theorem Unmarshal_collection_not_filled :
    Unmarshal (.arr [.chan]) (.ptr (.slice (.iface .null) [])) =
        (.ptr (.slice (.iface .null) []), some .unsupportedType) ∧
      (Unmarshal (.arr [.chan]) (.ptr (.slice (.iface .null) []))).1.deref.len ≠ 1 ∧
      Unmarshal (.arr [.str "a", .str "b"]) (.ptr (.slice (.str "") [.str "x"])) =
        (.ptr (.slice (.str "") [.str "x"]), some (.unmarshalType "string" "[]string")) ∧
      (Unmarshal (.arr [.str "a", .str "b"]) (.ptr (.slice (.str "") [.str "x"]))).1.deref.len ≠ 2 :=
  ⟨rfl, by decide, rfl, by decide⟩

/-- C2, amended: for a sequence of n elements that `json.Marshal` encodes (as
`js`) and a pointer to a slice that is nil or empty, `Unmarshal` passes the
whole sequence through: the target becomes a slice of exactly n elements, the
i-th decoded from the i-th element of the response; a nil sequence leaves a
nil slice. -/
theorem Unmarshal_collection_passes_through (xs : List Raw) (js : List Json) (elem cur : GoVal)
    (henc : marshalList xs = .ok js) (hcur : cur = .nilSlice elem ∨ cur = .slice elem []) :
    (Unmarshal (.arr xs) (.ptr cur)).1 = .ptr (.slice elem (js.map fun j => (decode j elem).1)) ∧
      (Unmarshal (.arr xs) (.ptr cur)).1.deref.len = xs.length ∧
      Unmarshal .nilSlice (.ptr cur) = (.ptr (.nilSlice elem), none) := by
  have hs : isSlice (.ptr cur) = true := by
    rcases hcur with h | h <;> subst h <;> rfl
  have h1 : (Unmarshal (.arr xs) (.ptr cur)).1 =
      .ptr (.slice elem (js.map fun j => (decode j elem).1)) := by
    rw [Unmarshal_whole (.arr xs) xs _ rfl (Or.inl hs)]
    simp only [json_Marshal, henc, json_Unmarshal]
    rcases hcur with h | h <;> subst h <;> simp only [decode, decodeList_nil]
  refine ⟨h1, ?_, ?_⟩
  · rw [h1]
    simp [Target.deref, GoVal.len, marshalList_length xs js henc]
  · rw [Unmarshal_whole .nilSlice [] _ rfl (Or.inr rfl)]
    rcases hcur with h | h <;> subst h <;> rfl

/-- C2 amended, at a two-element response and a pointer to a nil `[]string`. -/
theorem Unmarshal_collection_passes_through_witness :
    marshalList [.str "a", .str "b"] = .ok [.str "a", .str "b"] ∧
      (Unmarshal (.arr [.str "a", .str "b"]) (.ptr (.nilSlice (.str "")))).1 =
        .ptr (.slice (.str "") [.str "a", .str "b"]) :=
  ⟨rfl, (Unmarshal_collection_passes_through [.str "a", .str "b"] [.str "a", .str "b"]
    (.str "") (.nilSlice (.str "")) rfl (Or.inl rfl)).1.trans rfl⟩

/-! ## The cancellable envelope -/

/-- C7, refuted as stated: with the context already done and the worker
already blocked on its send after a successful driver call, `select` may take
either case, so `DeleteItem` may return nil. -/
theorem DeleteItem_cancelled_may_succeed :
    DeleteItem ⟨true, true⟩ (.ok .null) = [some (fmt_Errorf "context cancelled"), none] ∧
      (none : Option Error) ∈ DeleteItem ⟨true, true⟩ (.ok .null) :=
  ⟨rfl, by decide⟩

/-- C7, amended: with the context already done, every operation can return
its cancellation or timeout error, and returns nothing else as long as the
worker has not finished its driver call when the `select` is resolved. -/
theorem cancelled_context_returns (k : Race) (driver : DriverResult) (hdone : k.ctxDone = true) :
    (some (fmt_Errorf "context cancelled") ∈ DeleteItem k driver ∧
      some (fmt_Errorf "context cancelled") ∈ CreateItem k driver ∧
      some (fmt_Errorf "context cancelled") ∈ UpdateItem k driver ∧
      (Raw.null, some (fmt_Errorf "context cancelled")) ∈ RelateRecords k driver ∧
      (Raw.null, some (fmt_Errorf "timeout hit")) ∈ GetItem k driver ∧
      (Raw.null, some (fmt_Errorf "timeout hit")) ∈ GetItems k driver ∧
      (QueryResult, some (fmt_Errorf "timeout hit")) ∈ Query k driver) ∧
    (k.workerArrived = false →
      DeleteItem k driver = [some (fmt_Errorf "context cancelled")] ∧
      CreateItem k driver = [some (fmt_Errorf "context cancelled")] ∧
      UpdateItem k driver = [some (fmt_Errorf "context cancelled")] ∧
      RelateRecords k driver = [(Raw.null, some (fmt_Errorf "context cancelled"))] ∧
      GetItem k driver = [(Raw.null, some (fmt_Errorf "timeout hit"))] ∧
      GetItems k driver = [(Raw.null, some (fmt_Errorf "timeout hit"))] ∧
      Query k driver = [(QueryResult, some (fmt_Errorf "timeout hit"))]) := by
  obtain ⟨d, w⟩ := k
  simp only at hdone
  subst hdone
  refine ⟨?_, fun hw => ?_⟩
  · simp [DeleteItem, CreateItem, UpdateItem, RelateRecords, GetItem, GetItems, Query, select]
  · simp only at hw
    subst hw
    simp [DeleteItem, CreateItem, UpdateItem, RelateRecords, GetItem, GetItems, Query, select,
      Race.sender]

/-- C7 amended, at a done context with the worker still in its driver call. -/
theorem cancelled_context_returns_witness :
    (⟨true, false⟩ : Race).ctxDone = true ∧
      DeleteItem ⟨true, false⟩ (.ok .null) = [some (fmt_Errorf "context cancelled")] :=
  ⟨rfl, ((cancelled_context_returns ⟨true, false⟩ (.ok .null) rfl).2 rfl).1⟩

/-- Decoding into an `interface{}` stores the generic value and never fails. -/
theorem decode_iface (j : Json) (r : Raw) : decode j (.iface r) = (.iface (toIface j), none) := by
  cases j <;> simp [decode, toIface]

/-- C8: each worker sends on the handoff channel exactly when its driver call
succeeded (for `get`, when moreover the item could be re-encoded, and then it
sends the re-decoded item); when the driver call fails, every operation
returns its cancellation or timeout error if the context is done and cannot
return at all otherwise. -/
theorem worker_sends_iff_driver_succeeded (driver : DriverResult) (k : Race) (e : Error) :
    (((delete driver).isSome = true ↔ ∃ r, driver = .ok r) ∧
      ((create driver).isSome = true ↔ ∃ r, driver = .ok r) ∧
      ((update driver).isSome = true ↔ ∃ r, driver = .ok r) ∧
      (∀ x, relate driver = some x ↔ driver = .ok x) ∧
      (∀ x, query driver = some x ↔ driver = .ok x) ∧
      (∀ x, get driver = some x ↔
        ∃ item b, driver = .ok item ∧ json_Marshal item = .ok b ∧ x = toIface b)) ∧
    (DeleteItem k (.error e) = (if k.ctxDone then [some (fmt_Errorf "context cancelled")] else []) ∧
      CreateItem k (.error e) = (if k.ctxDone then [some (fmt_Errorf "context cancelled")] else []) ∧
      UpdateItem k (.error e) = (if k.ctxDone then [some (fmt_Errorf "context cancelled")] else []) ∧
      RelateRecords k (.error e) =
        (if k.ctxDone then [(Raw.null, some (fmt_Errorf "context cancelled"))] else []) ∧
      GetItem k (.error e) = (if k.ctxDone then [(Raw.null, some (fmt_Errorf "timeout hit"))] else []) ∧
      GetItems k (.error e) = (if k.ctxDone then [(Raw.null, some (fmt_Errorf "timeout hit"))] else []) ∧
      Query k (.error e) = (if k.ctxDone then [(QueryResult, some (fmt_Errorf "timeout hit"))] else [])) := by
  constructor
  · refine ⟨?_, ?_, ?_, ?_, ?_, ?_⟩
    · cases driver <;> simp [delete]
    · cases driver <;> simp [create]
    · cases driver <;> simp [update]
    · intro x; cases driver <;> simp [relate]
    · intro x; cases driver <;> simp [query]
    · intro x
      cases driver with
      | error err => simp [get]
      | ok item =>
        cases hm : json_Marshal item with
        | error err => simp [get, hm]
        | ok b =>
          simp only [get, hm, json_Unmarshal, decode_iface]
          constructor
          · intro h
            simp only [Option.some.injEq] at h
            exact ⟨item, b, rfl, hm, h.symm⟩
          · rintro ⟨item2, b2, h1, h2, h3⟩
            simp only [Except.ok.injEq] at h1
            subst h1
            rw [hm] at h2
            simp only [Except.ok.injEq] at h2
            subst h2 h3
            rfl
  · obtain ⟨d, w⟩ := k
    cases d <;> cases w <;>
      simp [DeleteItem, CreateItem, UpdateItem, RelateRecords, GetItem, GetItems, Query, select,
        Race.sender, delete, create, update, relate, get, query]

mutual
/-- A JSON-shaped value is encoded without error and decodes back to itself. -/
theorem json_Marshal_roundtrip :
    ∀ x : Raw, x.isJSON = true → ∃ j, json_Marshal x = .ok j ∧ toIface j = x
  | .null, _ => ⟨.null, rfl, rfl⟩
  | .bool b, _ => ⟨.bool b, rfl, rfl⟩
  | .num n, _ => ⟨.num n, rfl, rfl⟩
  | .str s, _ => ⟨.str s, rfl, rfl⟩
  | .nilSlice, h => by simp [Raw.isJSON] at h
  | .chan, h => by simp [Raw.isJSON] at h
  | .arr xs, h => by
    simp only [Raw.isJSON] at h
    obtain ⟨js, h1, h2⟩ := marshalList_roundtrip xs h
    exact ⟨.arr js, by simp only [json_Marshal, h1], by simp only [toIface, h2]⟩
  | .obj kvs, h => by
    simp only [Raw.isJSON] at h
    obtain ⟨js, h1, h2⟩ := marshalFields_roundtrip kvs h
    exact ⟨.obj js, by simp only [json_Marshal, h1], by simp only [toIface, h2]⟩
/-- JSON-shaped elements are encoded without error and decode back to themselves. -/
theorem marshalList_roundtrip :
    ∀ xs : List Raw, allJSON xs = true → ∃ js, marshalList xs = .ok js ∧ toIfaceList js = xs
  | [], _ => ⟨[], rfl, rfl⟩
  | x :: xs, h => by
    simp only [allJSON, Bool.and_eq_true] at h
    obtain ⟨j, h1, h2⟩ := json_Marshal_roundtrip x h.1
    obtain ⟨js, h3, h4⟩ := marshalList_roundtrip xs h.2
    exact ⟨j :: js, by simp only [marshalList, h1, h3], by simp only [toIfaceList, h2, h4]⟩
/-- JSON-shaped entries are encoded without error and decode back to themselves. -/
theorem marshalFields_roundtrip :
    ∀ kvs : List (String × Raw), allFieldsJSON kvs = true →
      ∃ js, marshalFields kvs = .ok js ∧ toIfaceFields js = kvs
  | [], _ => ⟨[], rfl, rfl⟩
  | (k, x) :: kvs, h => by
    simp only [allFieldsJSON, Bool.and_eq_true] at h
    obtain ⟨j, h1, h2⟩ := json_Marshal_roundtrip x h.1
    obtain ⟨js, h3, h4⟩ := marshalFields_roundtrip kvs h.2
    exact ⟨(k, j) :: js, by simp only [marshalFields, h1, h3], by simp only [toIfaceFields, h2, h4]⟩
end

/-- Decoding an array into an empty `[]interface{}` stores the generic values. -/
theorem decodeList_iface (r : Raw) :
    ∀ js : List Json, decodeList js [] (.iface r) = ((toIfaceList js).map GoVal.iface, none)
  | [] => rfl
  | j :: js => by
    simp only [decodeList, decode_iface, decodeList_iface r js, toIfaceList, List.map, firstError]

/-- Decoding the three members of a query response into a zero `QueryResult`. -/
theorem decode_QueryResult (js : List Json) (status time : String) :
    decode (.obj [("result", .arr js), ("status", .str status), ("time", .str time)]) QueryResult =
      (.struct "surreal.QueryResult"
        [("time", .str time), ("status", .str status),
          ("result", .slice (.iface .null) ((toIfaceList js).map GoVal.iface))], none) := by
  have h1 : ∀ a b c : GoVal, fieldIndex "result" [("time", a), ("status", b), ("result", c)] = some 2 :=
    fun _ _ _ => rfl
  have h2 : ∀ a b c : GoVal, fieldIndex "status" [("time", a), ("status", b), ("result", c)] = some 1 :=
    fun _ _ _ => rfl
  have h3 : ∀ a b c : GoVal, fieldIndex "time" [("time", a), ("status", b), ("result", c)] = some 0 :=
    fun _ _ _ => rfl
  simp only [QueryResult, decode, decodeFields, h1, h2, h3, List.get?, List.set, decodeList_iface,
    firstError]

/-- Normalising a query response whose first element has the members `result`,
`status` and `time`. -/
theorem Unmarshal_query_response (time status : String) (items rest : List Raw)
    (hjson : allJSON items = true) :
    Unmarshal
        (.arr (.obj [("result", .arr items), ("status", .str status), ("time", .str time)] :: rest))
        (.ptr QueryResult) =
      (.ptr (QueryResult.mk time status items), none) := by
  obtain ⟨js, h1, h2⟩ := marshalList_roundtrip items hjson
  have hs : isSlice (.ptr QueryResult) = false := rfl
  rw [Unmarshal_cons_of_not_isSlice _ _ _ hs]
  simp only [json_Marshal, marshalFields, h1, json_Unmarshal, decode_QueryResult, h2, QueryResult.mk]

/-- C9: when the driver answers a query with a non-empty sequence whose first
element is an object with `time` and `status` strings and a `result` sequence
of JSON-shaped items, the normalisation step of `Query` yields, with no error,
the `QueryResult` holding that time, that status and exactly those items, in
order and as raw values; this is what `Query` returns when the worker's value
is received, its only other return being the timeout; and when normalisation
fails, `Query` returns the zero `QueryResult` with the error. -/
theorem Query_normalises_response (time status : String) (items rest : List Raw)
    (hjson : allJSON items = true) :
    Query.normalise
        (.arr (.obj [("result", .arr items), ("status", .str status), ("time", .str time)] :: rest)) =
      (QueryResult.mk time status items, none) ∧
    Query ⟨false, true⟩
        (.ok (.arr (.obj [("result", .arr items), ("status", .str status), ("time", .str time)] :: rest))) =
      [(QueryResult.mk time status items, none)] ∧
    (∀ k : Race, ∀ r ∈ Query k
        (.ok (.arr (.obj [("result", .arr items), ("status", .str status), ("time", .str time)] :: rest))),
      r = (QueryResult, some (fmt_Errorf "timeout hit")) ∨ r = (QueryResult.mk time status items, none)) ∧
    (∀ (blob : Raw) (err : Error), (Unmarshal blob (.ptr QueryResult)).2 = some err →
      Query ⟨false, true⟩ (.ok blob) = [(QueryResult, some err)]) := by
  have hn : Query.normalise
      (.arr (.obj [("result", .arr items), ("status", .str status), ("time", .str time)] :: rest)) =
      (QueryResult.mk time status items, none) := by
    simp only [Query.normalise, Unmarshal_query_response time status items rest hjson, Target.deref]
  refine ⟨hn, ?_, ?_, ?_⟩
  · simp [Query, select, Race.sender, query, hn]
  · intro k r hr
    obtain ⟨d, w⟩ := k
    cases d <;> cases w <;> simp [Query, select, Race.sender, query, hn] at hr <;> simp [hr]
  · intro blob err h
    simp [Query, select, Race.sender, query, Query.normalise, h]

/-- C9, at a response with two items and a second, ignored element. -/
theorem Query_normalises_response_witness :
    allJSON [.num 1, .obj [("id", .str "item:1")]] = true ∧
      Query ⟨false, true⟩
          (.ok (.arr [.obj [("result", .arr [.num 1, .obj [("id", .str "item:1")]]),
            ("status", .str "OK"), ("time", .str "1ms")], .null])) =
        [(QueryResult.mk "1ms" "OK" [.num 1, .obj [("id", .str "item:1")]], none)] :=
  ⟨rfl, (Query_normalises_response "1ms" "OK" [.num 1, .obj [("id", .str "item:1")]] [.null] rfl).2.1⟩

/-! ## The connection context -/

/-- C10, refuted as stated: `New` with a namespace but no database, accepted
by the driver, yields a client whose namespace is set and whose database is not. -/
theorem New_namespace_without_database :
    New none none none ⟨"ws://localhost:8000/rpc", "root", "root", "n", ""⟩ =
        .ok ⟨"", "n", ⟨"ws://localhost:8000/rpc", "root", "root", "n", ""⟩⟩ ∧
      ¬ Paired "n" "" :=
  ⟨rfl, by decide⟩

/-- A sequence of selections keeps the pairing when every accepted selection is paired. -/
theorem useAll_paired :
    ∀ (calls : List UseCall) (s : Surreal),
      Paired s.CurrentNamespace s.CurrentDatabase →
      (∀ c ∈ calls, c.use = none → Paired c.ns c.database) →
      Paired (useAll s calls).CurrentNamespace (useAll s calls).CurrentDatabase
  | [], s, hs, _ => hs
  | c :: cs, s, hs, hc => by
    simp only [useAll]
    apply useAll_paired cs
    · cases hu : c.use with
      | some err => simpa [UseNamespaceAndDatabase] using hs
      | none => simpa [UseNamespaceAndDatabase] using hc c (List.mem_cons_self _ _) hu
    · intro c2 hc2 hu
      exact hc c2 (List.mem_cons_of_mem _ hc2) hu

/-- C10, amended: in every client state reached through `New` followed by any
sequence of `UseNamespaceAndDatabase` calls, whatever the driver answers,
`CurrentNamespace` and `CurrentDatabase` are both unset or both set, provided
the configured pair and every pair the driver accepted are themselves both
empty or both non-empty. -/
theorem namespace_database_paired (connect signin use : Option Error) (config : SurrealConfig)
    (s : Surreal) (calls : List UseCall)
    (hnew : New connect signin use config = .ok s)
    (hcfg : Paired config.Namespace config.Database)
    (hcalls : ∀ c ∈ calls, c.use = none → Paired c.ns c.database) :
    Paired (useAll s calls).CurrentNamespace (useAll s calls).CurrentDatabase := by
  apply useAll_paired calls s _ hcalls
  cases connect with
  | some err => simp [New] at hnew
  | none =>
    cases signin with
    | some err => simp [New] at hnew
    | none =>
      simp only [New] at hnew
      split at hnew
      · cases use with
        | some err => simp at hnew
        | none =>
          simp only [Except.ok.injEq] at hnew
          subst hnew
          exact hcfg
      · simp only [Except.ok.injEq] at hnew
        subst hnew
        exact Or.inl ⟨rfl, rfl⟩

/-- C10 amended, at a client built for `n`/`d`, then switched to `n2`/`d2`,
then refused a switch to `x` without a database. -/
theorem namespace_database_paired_witness :
    New none none none ⟨"ws://localhost:8000/rpc", "root", "root", "n", "d"⟩ =
        .ok ⟨"d", "n", ⟨"ws://localhost:8000/rpc", "root", "root", "n", "d"⟩⟩ ∧
      Paired "n" "d" ∧
      Paired
        (useAll ⟨"d", "n", ⟨"ws://localhost:8000/rpc", "root", "root", "n", "d"⟩⟩
          [⟨"n2", "d2", none⟩, ⟨"x", "", some (.errorString "refused")⟩]).CurrentNamespace
        (useAll ⟨"d", "n", ⟨"ws://localhost:8000/rpc", "root", "root", "n", "d"⟩⟩
          [⟨"n2", "d2", none⟩, ⟨"x", "", some (.errorString "refused")⟩]).CurrentDatabase :=
  ⟨rfl, by decide,
    namespace_database_paired none none none ⟨"ws://localhost:8000/rpc", "root", "root", "n", "d"⟩
      ⟨"d", "n", ⟨"ws://localhost:8000/rpc", "root", "root", "n", "d"⟩⟩
      [⟨"n2", "d2", none⟩, ⟨"x", "", some (.errorString "refused")⟩] rfl (by decide) (by decide)⟩

end surreal
